import Mathlib

/-
Verification of the module-classification core of `src/upload/form/project_assets.rs`:
glob-driven type matchers, the module manifest builder, the module-type registry,
and the two binding aggregators. Rust values are embedded shallowly:
file-system paths become lists of path components (a leading "/" component marks
an absolute path), machine maps become association lists in insertion order, and
fallible functions return `Except`.
-/

set_option autoImplicit false

namespace Wrangler

/-- A file-system path, as its (already normalized) sequence of components.
An absolute path starts with the component "/". Models `std::path::Path`. -/
abbrev FsPath := List String

/-- Rendering of a path for error messages; models `Path::display`. -/
def display : FsPath → String
  | "/" :: rest => "/" ++ String.intercalate "/" rest
  | p => String.intercalate "/" p

/-- The final component of a path, when it names a file; models `Path::file_name`. -/
def fileName (p : FsPath) : Option String :=
  match p.getLast? with
  | none => none
  | some s => if s = "/" ∨ s = "" ∨ s = "." ∨ s = ".." then none else some s

/-- Component-wise removal of a leading root; models `Path::strip_prefix`
(`some` of the relative remainder when `root` is a component-prefix, else `none`). -/
def stripRoot (root p : FsPath) : Option FsPath :=
  if root.isPrefixOf p then some (p.drop root.length) else none

/-- Forward-slash join of a relative path; models `path_slash::PathExt::to_slash_lossy`. -/
def toSlash (rel : FsPath) : String := String.intercalate "/" rel

/-- Modelled from the spec: the glob matching performed by the external
`ignore`/`globset` collaborator, for the pattern constructs the configuration
uses ( a star matching any character run, a question mark matching one
character, and literal characters), anchored over the whole file name. The
fuel argument only bounds the recursion; every call shrinks the combined
length of the two lists, so the bound passed by `globMatch` is never hit. -/
def globMatchAux : Nat → List Char → List Char → Bool
  | 0, _, _ => false
  | _ + 1, [], s => s.isEmpty
  | fuel + 1, '*' :: ps, [] => globMatchAux fuel ps []
  | fuel + 1, '*' :: ps, c :: cs =>
      globMatchAux fuel ps (c :: cs) || globMatchAux fuel ('*' :: ps) cs
  | fuel + 1, '?' :: ps, _ :: cs => globMatchAux fuel ps cs
  | _ + 1, '?' :: _, [] => false
  | fuel + 1, p :: ps, c :: cs => p == c && globMatchAux fuel ps cs
  | _ + 1, _ :: _, [] => false

/-- A glob pattern matched against a file name. -/
def globMatch (pat name : String) : Bool :=
  globMatchAux (pat.length + name.length + 1) pat.toList name.toList

/-- Scan for an unterminated character class, the parse failure the external
glob engine reports. The Boolean argument tracks being inside a class. -/
def hasUnclosedClass : List Char → Bool → Bool
  | [], inside => inside
  | '[' :: rest, false => hasUnclosedClass rest true
  | ']' :: rest, true => hasUnclosedClass rest false
  | _ :: rest, inside => hasUnclosedClass rest inside

/-- Modelled from the spec: validation of one glob pattern by the external glob
engine; `some` carries the underlying syntax-error text. -/
def globParse (g : String) : Option String :=
  if hasUnclosedClass g.toList false then some "unclosed character class" else none

/-- The closed enumeration of module kinds (source lines 97-104). -/
inductive ModuleType
  | ESModule
  | CommonJS
  | CompiledWasm
  | Text
  | Data
deriving DecidableEq, Repr

/-- Fixed content-type label of each module kind (source lines 106-116). -/
def ModuleType.content_type : ModuleType → String
  | .ESModule => "application/javascript+module"
  | .CommonJS => "application/javascript"
  | .CompiledWasm => "application/wasm"
  | .Text => "text/plain"
  | .Data => "application/octet-stream"

/-- One classified module of the manifest (source lines 90-95). -/
structure Module where
  name : String
  path : FsPath
  module_type : ModuleType
deriving DecidableEq, Repr

/-- The five optional per-type glob lists of the configuration (source lines 118-125). -/
structure ModuleGlobs where
  esm : Option (List String)
  cjs : Option (List String)
  text : Option (List String)
  data : Option (List String)
  compiled_wasm : Option (List String)
deriving DecidableEq, Repr

/-- The all-unset configuration, as produced by `ModuleGlobs::default()`. -/
def ModuleGlobs.unset : ModuleGlobs := ⟨none, none, none, none, none⟩

/-- One per-type matcher: the selected glob list together with its module type
(source lines 127-130); models `ignore::types::Types` restricted to this use. -/
structure ModuleMatcher where
  matcher : List String
  module_type : ModuleType
deriving DecidableEq, Repr

/-- Whether a per-type matcher whitelists a path: some of its globs matches the
path's file name. Models `Types::matched(path, false).is_whitelist()` for
matchers built from positive selections only. -/
def matchedWhitelist (globs : List String) (p : FsPath) : Bool :=
  match fileName p with
  | some n => globs.any (fun g => globMatch g n)
  | none => false

/-- Errors surfaced by the asset core; `message` below renders each exactly as
the source formats it. -/
inductive AssetsError
  | globParseErr : Option String → String → AssetsError
  | notUnderRoot : FsPath → AssetsError
  | multiMatch : FsPath → AssetsError
  | emptyFilename : FsPath → AssetsError
deriving DecidableEq, Repr

/-- The error text each `AssetsError` is reported with (source lines 39-41,
160, 169-172, 232-242). -/
def AssetsError.message : AssetsError → String
  | .globParseErr (some g) e =>
      "encountered error while parsing the glob \"" ++ g ++ "\": " ++ e
  | .globParseErr none e => "encountered error while parsing globs: " ++ e
  | .notUnderRoot _ => "prefix not found"
  | .multiMatch p => "The module at " ++ display p ++ " matched multiple module type globs."
  | .emptyFilename p => "filename should not be empty: " ++ display p

/-- The effective (configured-or-default) glob list of every module type, in the
order the source registers them (source lines 220-228): esm, cjs,
compiled_wasm (no default), text, data. -/
def typeGlobs (g : ModuleGlobs) : List (List String × ModuleType) :=
  [ (g.esm.getD ["*.mjs"], .ESModule),
    (g.cjs.getD ["*.js", "*.cjs"], .CommonJS),
    (g.compiled_wasm.getD [], .CompiledWasm),
    (g.text.getD ["*.txt"], .Text),
    (g.data.getD ["*.bin"], .Data) ]

/-- First invalid glob of a list, with its syntax error, as the external
engine's per-type build reports it. -/
def findBadGlob (globs : List String) : Option (String × String) :=
  globs.findSome? (fun g => (globParse g).map (fun e => (g, e)))

/-- Builds, per type in registration order, the per-type matchers plus the
combined glob list, failing on the first invalid glob (the per-type build
inside `add_all_globs`, whose `ignore::Error::Glob` the source maps to a
message naming the offending glob; source lines 190-247). -/
def buildMatchersList : List (List String × ModuleType) →
    Except AssetsError (List String × List ModuleMatcher)
  | [] => .ok ([], [])
  | (gs, t) :: rest =>
    match findBadGlob gs with
    | some (g, e) => .error (.globParseErr (some g) e)
    | none =>
      match buildMatchersList rest with
      | .error e => .error e
      | .ok (allGlobs, ms) => .ok (gs ++ allGlobs, ⟨gs, t⟩ :: ms)

/-- `ModuleGlobs::build_type_matchers` (source lines 190-247). -/
def ModuleGlobs.build_type_matchers (g : ModuleGlobs) :
    Except AssetsError (List String × List ModuleMatcher) :=
  buildMatchersList (typeGlobs g)

/-- Whether the manifest under construction already holds an entry with the
given canonical name; models `HashMap::contains_key`. -/
def containsName (st : List (String × Module)) (n : String) : Bool :=
  st.any (fun e => decide (e.1 = n))

/-- The inner matcher loop of `create_module_manifest` for one candidate
(source lines 162-184): each whitelisting matcher first checks the name for a
prior entry (failing with the multi-match error), else inserts the module. -/
def processMatchers (name : String) (p : FsPath) :
    List ModuleMatcher → List (String × Module) →
    Except AssetsError (List (String × Module))
  | [], st => .ok st
  | m :: rest, st =>
    if matchedWhitelist m.matcher p then
      if containsName st name then .error (.multiMatch p)
      else processMatchers name p rest (st ++ [(name, ⟨name, p, m.module_type⟩)])
    else processMatchers name p rest st

/-- The outer candidate loop of `create_module_manifest` (source lines 155-185):
derive each candidate's canonical `./`-name relative to the upload root (failing
when the candidate is not under it), then run the matcher loop. -/
def manifestAux (root : FsPath) (ms : List ModuleMatcher) :
    List FsPath → List (String × Module) →
    Except AssetsError (List (String × Module))
  | [], st => .ok st
  | p :: rest, st =>
    match stripRoot root p with
    | none => .error (.notUnderRoot p)
    | some rel =>
      match processMatchers ("./" ++ toSlash rel) p ms st with
      | .error e => .error e
      | .ok st2 => manifestAux root ms rest st2

/-- `ModuleGlobs::create_module_manifest` (source lines 150-188): the map's
entries, as the module list the source drains out of it. -/
def create_module_manifest (paths : List FsPath) (root : FsPath)
    (ms : List ModuleMatcher) : Except AssetsError (List Module) :=
  (manifestAux root ms paths []).map (List.map Prod.snd)

/-- The number of per-type matchers whitelisting a path. -/
def countWhitelist (ms : List ModuleMatcher) (p : FsPath) : Nat :=
  (ms.filter (fun m => matchedWhitelist m.matcher p)).length

/-- Modelled from the spec: a binding is an opaque named descriptor of an
external resource, treated by this core as a pass-through value. -/
structure Binding where
  payload : String
deriving DecidableEq, Repr

/-- Modelled from the spec: a compiled-wasm module descriptor, opaque beyond
producing its binding. -/
structure WasmModule where
  binding : Binding
deriving DecidableEq, Repr

/-- Modelled from the spec: a KV-namespace descriptor, opaque beyond producing
its binding. -/
structure KvNamespace where
  binding : Binding
deriving DecidableEq, Repr

/-- Modelled from the spec: a durable-object class descriptor, opaque beyond
producing its binding. -/
structure DurableObjectsClass where
  binding : Binding
deriving DecidableEq, Repr

/-- Modelled from the spec: a text-blob descriptor, opaque beyond producing
its binding. -/
structure TextBlob where
  binding : Binding
deriving DecidableEq, Repr

/-- Modelled from the spec: a plain-text descriptor, opaque beyond producing
its binding. -/
structure PlainText where
  binding : Binding
deriving DecidableEq, Repr

/-- Modelled from the spec: an optional storage-migration directive, an opaque
value the aggregator merely owns. -/
structure ApiMigration where
  tag : String
deriving DecidableEq, Repr

/-- The file stem of a name: the part before the final dot, except that a name
whose only dot is its first character is its own stem; models
`Path::file_stem` on one component. -/
def fileStemOfName (n : String) : String :=
  match (n.toList.reverse.dropWhile (fun c => c ≠ '.')) with
  | [] => n
  | _ :: before =>
    match before with
    | [] => n
    | _ :: _ => String.mk before.reverse

/-- Modelled from the spec: `filestem_from_path` of the enclosing module (not
under src/), deriving a script name as the file stem of a path, `none` when the
path has no file name. -/
def filestem_from_path (p : FsPath) : Option String :=
  (fileName p).map fileStemOfName

/-- The legacy service-worker asset bundle (source lines 19-28). -/
structure ServiceWorkerAssets where
  script_name : String
  script_path : FsPath
  wasm_modules : List WasmModule
  kv_namespaces : List KvNamespace
  durable_object_classes : List DurableObjectsClass
  text_blobs : List TextBlob
  plain_texts : List PlainText
deriving DecidableEq, Repr

/-- `ServiceWorkerAssets::new` (source lines 31-52): fails exactly when no
script name can be derived from the script path. -/
def ServiceWorkerAssets.new (script_path : FsPath) (wasm_modules : List WasmModule)
    (kv_namespaces : List KvNamespace)
    (durable_object_classes : List DurableObjectsClass)
    (text_blobs : List TextBlob) (plain_texts : List PlainText) :
    Except AssetsError ServiceWorkerAssets :=
  match filestem_from_path script_path with
  | none => .error (.emptyFilename script_path)
  | some script_name =>
      .ok ⟨script_name, script_path, wasm_modules, kv_namespaces,
           durable_object_classes, text_blobs, plain_texts⟩

/-- `ServiceWorkerAssets::bindings` (source lines 54-79), as the push loops of
the source: one binding per descriptor, wasm modules first, then KV
namespaces, durable-object classes, text blobs, plain texts. -/
def ServiceWorkerAssets.bindings (a : ServiceWorkerAssets) : List Binding :=
  let bs := a.wasm_modules.foldl (fun acc wm => acc ++ [wm.binding]) []
  let bs := a.kv_namespaces.foldl (fun acc kv => acc ++ [kv.binding]) bs
  let bs := a.durable_object_classes.foldl (fun acc c => acc ++ [c.binding]) bs
  let bs := a.text_blobs.foldl (fun acc b => acc ++ [b.binding]) bs
  a.plain_texts.foldl (fun acc t => acc ++ [t.binding]) bs

/-- The modules-format asset bundle (source lines 250-257). -/
structure ModulesAssets where
  main_module : String
  modules : List Module
  kv_namespaces : List KvNamespace
  durable_object_classes : List DurableObjectsClass
  migration : Option ApiMigration
  plain_texts : List PlainText
deriving DecidableEq, Repr

/-- `ModulesAssets::new` (source lines 259-276): always succeeds. -/
def ModulesAssets.new (main_module : String) (modules : List Module)
    (kv_namespaces : List KvNamespace)
    (durable_object_classes : List DurableObjectsClass)
    (migration : Option ApiMigration) (plain_texts : List PlainText) :
    Except AssetsError ModulesAssets :=
  .ok ⟨main_module, modules, kv_namespaces, durable_object_classes,
       migration, plain_texts⟩

/-- `ModulesAssets::bindings` (source lines 278-298), as the push loops of the
source: KV namespaces, then durable-object classes, then plain texts; the
owned modules emit no binding. -/
def ModulesAssets.bindings (a : ModulesAssets) : List Binding :=
  let bs := a.kv_namespaces.foldl (fun acc kv => acc ++ [kv.binding]) []
  let bs := a.durable_object_classes.foldl (fun acc c => acc ++ [c.binding]) bs
  a.plain_texts.foldl (fun acc t => acc ++ [t.binding]) bs

/-- An entry of a successfully built manifest: its key is its module's name,
the name is the canonical `./`-name of its path, and exactly one per-type
matcher whitelists its path, the one whose type it carries. -/
def goodEntry (root : FsPath) (ms : List ModuleMatcher) (e : String × Module) : Prop :=
  e.1 = e.2.name ∧
  (∃ rel, stripRoot root e.2.path = some rel ∧ e.2.name = "./" ++ toSlash rel) ∧
  (∃ mm, ms.filter (fun x => matchedWhitelist x.matcher e.2.path) = [mm] ∧
    e.2.module_type = mm.module_type)

theorem countWhitelist_cons (m : ModuleMatcher) (ms : List ModuleMatcher) (p : FsPath) :
    countWhitelist (m :: ms) p =
      (if matchedWhitelist m.matcher p then 1 else 0) + countWhitelist ms p := by
  simp only [countWhitelist, List.filter_cons]
  split <;> simp [Nat.add_comm]

theorem containsName_append_left (st ext : List (String × Module)) (n : String)
    (h : containsName st n = true) : containsName (st ++ ext) n = true := by
  simp only [containsName, List.any_append, Bool.or_eq_true]
  exact Or.inl h

theorem containsName_append_self (st : List (String × Module)) (n : String) (m : Module) :
    containsName (st ++ [(n, m)]) n = true := by
  simp [containsName]

theorem containsName_eq_false_iff (st : List (String × Module)) (n : String) :
    containsName st n = false ↔ n ∉ st.map Prod.fst := by
  simp only [containsName, ← Bool.not_eq_true, List.any_eq_true]
  simp [eq_comm]

theorem processMatchers_contains_one (name : String) (p : FsPath)
    (ms : List ModuleMatcher) (st : List (String × Module))
    (h1 : containsName st name = true) (h2 : 1 ≤ countWhitelist ms p) :
    processMatchers name p ms st = .error (.multiMatch p) := by
  induction ms generalizing st with
  | nil => simp [countWhitelist] at h2
  | cons m rest ih =>
    rw [countWhitelist_cons] at h2
    by_cases hw : matchedWhitelist m.matcher p = true
    · simp [processMatchers, hw, h1]
    · simp only [Bool.not_eq_true] at hw
      simp only [hw, Bool.false_eq_true, if_false, Nat.zero_add] at h2
      simpa [processMatchers, hw] using ih st h1 h2

theorem processMatchers_two (name : String) (p : FsPath)
    (ms : List ModuleMatcher) (st : List (String × Module))
    (h : 2 ≤ countWhitelist ms p) :
    processMatchers name p ms st = .error (.multiMatch p) := by
  induction ms generalizing st with
  | nil => simp [countWhitelist] at h
  | cons m rest ih =>
    rw [countWhitelist_cons] at h
    by_cases hw : matchedWhitelist m.matcher p = true
    · by_cases hc : containsName st name = true
      · simp [processMatchers, hw, hc]
      · simp only [Bool.not_eq_true] at hc
        have h1 : 1 ≤ countWhitelist rest p := by simp [hw] at h; omega
        simpa [processMatchers, hw, hc] using
          processMatchers_contains_one name p rest _
            (containsName_append_self st name _) h1
    · simp only [Bool.not_eq_true] at hw
      simp only [hw, Bool.false_eq_true, if_false, Nat.zero_add] at h
      simpa [processMatchers, hw] using ih st h

theorem processMatchers_contains_ok (name : String) (p : FsPath)
    (ms : List ModuleMatcher) (st st' : List (String × Module))
    (h1 : containsName st name = true)
    (h : processMatchers name p ms st = .ok st') :
    countWhitelist ms p = 0 ∧ st' = st := by
  induction ms generalizing st with
  | nil => simp [processMatchers] at h; simp [countWhitelist, h]
  | cons m rest ih =>
    by_cases hw : matchedWhitelist m.matcher p = true
    · simp [processMatchers, hw, h1] at h
    · simp only [Bool.not_eq_true] at hw
      simp only [processMatchers, hw, Bool.false_eq_true, if_false] at h
      rcases ih st h1 h with ⟨hc, hst⟩
      refine ⟨?_, hst⟩
      rw [countWhitelist_cons]
      simp [hw, hc]

theorem processMatchers_ok_cases (name : String) (p : FsPath)
    (ms : List ModuleMatcher) (st st' : List (String × Module))
    (hfresh : containsName st name = false)
    (h : processMatchers name p ms st = .ok st') :
    (countWhitelist ms p = 0 ∧ st' = st) ∨
    (∃ mm, ms.filter (fun x => matchedWhitelist x.matcher p) = [mm] ∧
      st' = st ++ [(name, ⟨name, p, mm.module_type⟩)]) := by
  induction ms generalizing st with
  | nil =>
    simp [processMatchers] at h
    exact Or.inl ⟨by simp [countWhitelist], h.symm⟩
  | cons m rest ih =>
    by_cases hw : matchedWhitelist m.matcher p = true
    · simp only [processMatchers, hw, if_true, hfresh, Bool.false_eq_true, if_false] at h
      rcases processMatchers_contains_ok name p rest _ st'
        (containsName_append_self st name _) h with ⟨hc, hst⟩
      refine Or.inr ⟨m, ?_, hst⟩
      have hrest : rest.filter (fun x => matchedWhitelist x.matcher p) = [] := by
        simpa [countWhitelist, List.length_eq_zero] using hc
      simp [List.filter_cons, hw, hrest]
    · simp only [Bool.not_eq_true] at hw
      simp only [processMatchers, hw, Bool.false_eq_true, if_false] at h
      rcases ih st hfresh h with h0 | ⟨mm, hf, hst⟩
      · refine Or.inl ⟨?_, h0.2⟩
        rw [countWhitelist_cons]
        simp [hw, h0.1]
      · exact Or.inr ⟨mm, by simp [List.filter_cons, hw, hf], hst⟩

theorem processMatchers_mono (name : String) (p : FsPath)
    (ms : List ModuleMatcher) (st st' : List (String × Module))
    (h : processMatchers name p ms st = .ok st') :
    ∃ ext, st' = st ++ ext := by
  induction ms generalizing st with
  | nil => simp [processMatchers] at h; exact ⟨[], by simp [h]⟩
  | cons m rest ih =>
    by_cases hw : matchedWhitelist m.matcher p = true
    · by_cases hc : containsName st name = true
      · simp [processMatchers, hw, hc] at h
      · simp only [Bool.not_eq_true] at hc
        simp only [processMatchers, hw, if_true, hc, Bool.false_eq_true, if_false] at h
        rcases ih _ h with ⟨ext, hext⟩
        exact ⟨(name, ⟨name, p, m.module_type⟩) :: ext, by simp [hext]⟩
    · simp only [Bool.not_eq_true] at hw
      simp only [processMatchers, hw, Bool.false_eq_true, if_false] at h
      exact ih st h

theorem manifestAux_append (root : FsPath) (ms : List ModuleMatcher)
    (l1 l2 : List FsPath) (st : List (String × Module)) :
    manifestAux root ms (l1 ++ l2) st =
      match manifestAux root ms l1 st with
      | .ok st' => manifestAux root ms l2 st'
      | .error e => .error e := by
  induction l1 generalizing st with
  | nil => simp [manifestAux]
  | cons p rest ih =>
    simp only [List.cons_append, manifestAux]
    split
    · rfl
    · split
      · rfl
      · exact ih _

theorem manifestAux_mono (root : FsPath) (ms : List ModuleMatcher)
    (paths : List FsPath) (st st' : List (String × Module))
    (h : manifestAux root ms paths st = .ok st') :
    ∃ ext, st' = st ++ ext := by
  induction paths generalizing st with
  | nil => simp [manifestAux] at h; exact ⟨[], by simp [h]⟩
  | cons p rest ih =>
    simp only [manifestAux] at h
    split at h
    · exact Except.noConfusion h
    · rename_i rel hs
      split at h
      · exact Except.noConfusion h
      · rename_i st2 hp
        rcases processMatchers_mono _ _ _ _ _ hp with ⟨e1, he1⟩
        rcases ih st2 h with ⟨e2, he2⟩
        exact ⟨e1 ++ e2, by simp [he2, he1]⟩

theorem manifestAux_mem (root : FsPath) (ms : List ModuleMatcher)
    (paths : List FsPath) (st st' : List (String × Module)) (p : FsPath) (rel : FsPath)
    (h : manifestAux root ms paths st = .ok st') (hmem : p ∈ paths)
    (hstrip : stripRoot root p = some rel) (hcount : 1 ≤ countWhitelist ms p) :
    containsName st' ("./" ++ toSlash rel) = true := by
  induction paths generalizing st with
  | nil => simp at hmem
  | cons q rest ih =>
    simp only [manifestAux] at h
    split at h
    · exact Except.noConfusion h
    · rename_i relq hs
      split at h
      · exact Except.noConfusion h
      · rename_i st2 hp
        rcases List.mem_cons.mp hmem with heq | hmem'
        · subst heq
          rw [hstrip] at hs
          cases hs
          by_cases hc : containsName st ("./" ++ toSlash rel) = true
          · rcases processMatchers_contains_ok _ _ _ _ _ hc hp with ⟨h0, _⟩
            omega
          · simp only [Bool.not_eq_true] at hc
            rcases processMatchers_ok_cases _ _ _ _ _ hc hp with ⟨h0, _⟩ | ⟨mm, _, hst2⟩
            · omega
            · rcases manifestAux_mono _ _ _ _ _ h with ⟨ext, hext⟩
              rw [hext, hst2]
              exact containsName_append_left _ _ _ (containsName_append_self st _ _)
        · exact ih st2 h hmem'

/-- State invariant of the manifest builder: keys are pairwise distinct and
every entry is a `goodEntry`. -/
def manifestInv (root : FsPath) (ms : List ModuleMatcher)
    (st : List (String × Module)) : Prop :=
  (st.map Prod.fst).Nodup ∧ ∀ e ∈ st, goodEntry root ms e

theorem manifestAux_inv (root : FsPath) (ms : List ModuleMatcher)
    (paths : List FsPath) (st st' : List (String × Module))
    (h : manifestAux root ms paths st = .ok st') (hinv : manifestInv root ms st) :
    manifestInv root ms st' := by
  induction paths generalizing st with
  | nil => simp [manifestAux] at h; exact h ▸ hinv
  | cons p rest ih =>
    simp only [manifestAux] at h
    split at h
    · exact Except.noConfusion h
    · rename_i rel hs
      split at h
      · exact Except.noConfusion h
      · rename_i st2 hp
        refine ih st2 h ?_
        by_cases hc : containsName st ("./" ++ toSlash rel) = true
        · rcases processMatchers_contains_ok _ _ _ _ _ hc hp with ⟨_, hst2⟩
          exact hst2 ▸ hinv
        · simp only [Bool.not_eq_true] at hc
          rcases processMatchers_ok_cases _ _ _ _ _ hc hp with ⟨_, hst2⟩ | ⟨mm, hf, hst2⟩
          · exact hst2 ▸ hinv
          · subst hst2
            constructor
            · rw [List.map_append]
              refine List.Nodup.append hinv.1 (by simp) ?_
              intro a ha hb
              simp only [List.map_cons, List.map_nil, List.mem_singleton] at hb
              subst hb
              exact ((containsName_eq_false_iff _ _).mp hc) ha
            · intro e he
              rcases List.mem_append.mp he with he | he
              · exact hinv.2 e he
              · simp only [List.mem_singleton] at he
                subst he
                refine ⟨rfl, ⟨rel, hs, rfl⟩, ⟨mm, hf, rfl⟩⟩

theorem findBadGlob_eq_some (globs : List String) (g e : String)
    (h : findBadGlob globs = some (g, e)) : g ∈ globs ∧ globParse g = some e := by
  rcases List.exists_of_findSome?_eq_some h with ⟨a, ha, hf⟩
  rcases Option.map_eq_some'.mp hf with ⟨e', he', hpair⟩
  cases hpair
  exact ⟨ha, he'⟩

theorem buildMatchersList_bad (l : List (List String × ModuleType))
    (h : ∃ gt ∈ l, ∃ b ∈ gt.1, (globParse b).isSome) :
    ∃ bad err, buildMatchersList l = .error (.globParseErr (some bad) err) ∧
      globParse bad = some err := by
  induction l with
  | nil =>
    rcases h with ⟨gt, hgt, _⟩
    exact absurd hgt (List.not_mem_nil gt)
  | cons gt rest ih =>
    obtain ⟨gs, t⟩ := gt
    cases hfb : findBadGlob gs with
    | some be =>
      obtain ⟨bad, err⟩ := be
      rcases findBadGlob_eq_some gs bad err hfb with ⟨_, hp⟩
      exact ⟨bad, err, by simp [buildMatchersList, hfb], hp⟩
    | none =>
      have hnone : ∀ b ∈ gs, globParse b = none := by
        have := List.findSome?_eq_none_iff.mp hfb
        intro b hb
        have hb2 := this b hb
        cases hg : globParse b
        · rfl
        · rw [hg] at hb2; simp at hb2
      rcases h with ⟨gt', hgt', b, hb, hbad⟩
      rcases List.mem_cons.mp hgt' with heq | hmem
      · subst heq
        rw [hnone b hb] at hbad
        simp at hbad
      · rcases ih ⟨gt', hmem, b, hb, hbad⟩ with ⟨bad, err, hbuild, hp⟩
        refine ⟨bad, err, ?_, hp⟩
        simp only [buildMatchersList, hfb, hbuild]

theorem foldl_push {α β : Type} (f : α → β) (l : List α) (init : List β) :
    l.foldl (fun acc x => acc ++ [f x]) init = init ++ l.map f := by
  induction l generalizing init with
  | nil => simp
  | cons a l ih => simp [ih]

/-- `find_modules` (source lines 133-148) with the directory walk replaced by
an explicit candidate list: build the matchers, then build the manifest. -/
def find_modules_pure (g : ModuleGlobs) (paths : List FsPath) (root : FsPath) :
    Except AssetsError (List Module) :=
  match g.build_type_matchers with
  | .error e => .error e
  | .ok (_, ms) => create_module_manifest paths root ms

/-- The per-type matchers the default configuration compiles to. -/
def defaultMatchers : List ModuleMatcher :=
  [⟨["*.mjs"], .ESModule⟩, ⟨["*.js", "*.cjs"], .CommonJS⟩, ⟨[], .CompiledWasm⟩,
   ⟨["*.txt"], .Text⟩, ⟨["*.bin"], .Data⟩]

/-- The upload root of the spec's classification scenarios. -/
def scenarioRoot : FsPath := ["/", "worker", "dist"]

/-- The candidate files of the spec's default-configuration scenario. -/
def scenarioPaths : List FsPath :=
  [ ["/", "worker", "dist", "foo", "bar", "index.mjs"],
    ["/", "worker", "dist", "bar.js"],
    ["/", "worker", "dist", "foo", "baz.cjs"],
    ["/", "worker", "dist", "wat.txt"],
    ["/", "worker", "dist", "wat.bin"] ]

/-- The manifest the spec's default-configuration scenario expects. -/
def scenarioManifest : List Module :=
  [ ⟨"./foo/bar/index.mjs", ["/", "worker", "dist", "foo", "bar", "index.mjs"], .ESModule⟩,
    ⟨"./bar.js", ["/", "worker", "dist", "bar.js"], .CommonJS⟩,
    ⟨"./foo/baz.cjs", ["/", "worker", "dist", "foo", "baz.cjs"], .CommonJS⟩,
    ⟨"./wat.txt", ["/", "worker", "dist", "wat.txt"], .Text⟩,
    ⟨"./wat.bin", ["/", "worker", "dist", "wat.bin"], .Data⟩ ]

/-- The wasm candidate of the spec's compiled-wasm scenario. -/
def wasmPath : FsPath := ["/", "worker", "dist", "main.wasm"]

/-- The configuration of the spec's compiled-wasm scenario. -/
def wasmGlobs : ModuleGlobs := ⟨none, none, none, none, some ["*.wasm"]⟩

theorem create_module_manifest_ok_inv (paths : List FsPath) (root : FsPath)
    (ms : List ModuleMatcher) (mods : List Module)
    (h : create_module_manifest paths root ms = .ok mods) :
    ∃ st, manifestAux root ms paths [] = .ok st ∧ mods = st.map Prod.snd ∧
      manifestInv root ms st := by
  unfold create_module_manifest at h
  cases haux : manifestAux root ms paths [] with
  | error e => rw [haux] at h; exact Except.noConfusion h
  | ok st =>
    rw [haux] at h
    refine ⟨st, rfl, ?_, ?_⟩
    · cases h; rfl
    · exact manifestAux_inv root ms paths [] st haux ⟨by simp, by simp⟩

/-- C1: with the default (all-unset) configuration and upload root
/worker/dist, the pipeline of `build_type_matchers` and
`create_module_manifest` over the five scenario candidates succeeds and
yields exactly the five expected (name, module-type) classifications. -/
theorem C1_default_scenario_manifest :
    find_modules_pure ModuleGlobs.unset scenarioPaths scenarioRoot = .ok scenarioManifest ∧
    scenarioManifest.map (fun m => (m.name, m.module_type)) =
      [("./foo/bar/index.mjs", ModuleType.ESModule), ("./bar.js", ModuleType.CommonJS),
       ("./foo/baz.cjs", ModuleType.CommonJS), ("./wat.txt", ModuleType.Text),
       ("./wat.bin", ModuleType.Data)] :=
  ⟨rfl, rfl⟩

/-- C2: a candidate under the root that two or more per-type matchers
whitelist makes the manifest build fail with the multi-match error naming
that candidate, whose message states it matched multiple module type globs. -/
theorem C2_multi_glob_conflict (root : FsPath) (ms : List ModuleMatcher)
    (l1 l2 : List FsPath) (p rel : FsPath) (st : List (String × Module))
    (hpre : manifestAux root ms l1 [] = .ok st)
    (hstrip : stripRoot root p = some rel)
    (hcount : 2 ≤ countWhitelist ms p) :
    create_module_manifest (l1 ++ p :: l2) root ms = .error (.multiMatch p) ∧
    (AssetsError.multiMatch p).message =
      "The module at " ++ display p ++ " matched multiple module type globs." := by
  refine ⟨?_, rfl⟩
  unfold create_module_manifest
  simp only [manifestAux_append, hpre, manifestAux, hstrip]
  rw [processMatchers_two ("./" ++ toSlash rel) p ms st hcount]
  rfl

/-- C3: every successfully built manifest has pairwise-distinct module names,
and each module's type is that of the unique per-type matcher whitelisting
its path. -/
theorem C3_manifest_invariant (paths : List FsPath) (root : FsPath)
    (ms : List ModuleMatcher) (mods : List Module)
    (h : create_module_manifest paths root ms = .ok mods) :
    (mods.map Module.name).Nodup ∧
    ∀ m ∈ mods, ∃ mm,
      ms.filter (fun x => matchedWhitelist x.matcher m.path) = [mm] ∧
      m.module_type = mm.module_type := by
  rcases create_module_manifest_ok_inv paths root ms mods h with ⟨st, _, hmods, hinv⟩
  subst hmods
  constructor
  · rw [List.map_map]
    have : st.map (Module.name ∘ Prod.snd) = st.map Prod.fst :=
      List.map_congr_left (fun e he => ((hinv.2 e he).1).symm)
    rw [this]
    exact hinv.1
  · intro m hm
    rcases List.mem_map.mp hm with ⟨e, he, hme⟩
    subst hme
    exact (hinv.2 e he).2.2

/-- C4: modules of a successful build are named by the `./`-prefixed
forward-slash path relative to the upload root, and a candidate not under the
upload root fails the build with the path (strip-prefix) error. -/
theorem C4_canonical_name_and_root :
    (∀ paths root ms mods, create_module_manifest paths root ms = .ok mods →
      ∀ m ∈ mods, ∃ rel, stripRoot root m.path = some rel ∧
        m.name = "./" ++ toSlash rel) ∧
    (∀ root ms l1 l2 p st, manifestAux root ms l1 [] = .ok st →
      stripRoot root p = none →
      create_module_manifest (l1 ++ p :: l2) root ms =
        .error (.notUnderRoot p)) := by
  constructor
  · intro paths root ms mods h m hm
    rcases create_module_manifest_ok_inv paths root ms mods h with ⟨st, _, hmods, hinv⟩
    subst hmods
    rcases List.mem_map.mp hm with ⟨e, he, hme⟩
    subst hme
    exact (hinv.2 e he).2.1
  · intro root ms l1 l2 p st hpre hstrip
    unfold create_module_manifest
    simp only [manifestAux_append, hpre, manifestAux, hstrip]
    rfl

/-- C5: with compiled_wasm unset, main.wasm is silently excluded; with
compiled_wasm = ["*.wasm"], it is classified CompiledWasm; in general a
candidate whitelisted by zero per-type matchers is never a module of a
successful manifest. -/
theorem C5_zero_match_exclusion :
    find_modules_pure ModuleGlobs.unset [wasmPath] scenarioRoot = .ok [] ∧
    find_modules_pure wasmGlobs [wasmPath] scenarioRoot =
      .ok [⟨"./main.wasm", wasmPath, ModuleType.CompiledWasm⟩] ∧
    ∀ paths root ms mods q, create_module_manifest paths root ms = .ok mods →
      countWhitelist ms q = 0 → ∀ m ∈ mods, m.path ≠ q := by
  refine ⟨rfl, rfl, ?_⟩
  intro paths root ms mods q h hq m hm hpq
  rcases create_module_manifest_ok_inv paths root ms mods h with ⟨st, _, hmods, hinv⟩
  subst hmods
  rcases List.mem_map.mp hm with ⟨e, he, hme⟩
  rcases (hinv.2 e he).2.2 with ⟨mm, hf, _⟩
  have : countWhitelist ms e.2.path = 1 := by
    simp [countWhitelist, hf]
  rw [hme, hpq] at this
  omega

/-- C6: a configured or default glob that fails to parse makes
`build_type_matchers` fail with an error naming the offending glob and its
syntax error; the error shape with no identifiable glob carries the generic
parse message. -/
theorem C6_glob_parse_error (g : ModuleGlobs)
    (h : ∃ gt ∈ typeGlobs g, ∃ b ∈ gt.1, (globParse b).isSome) :
    (∃ bad err, g.build_type_matchers = .error (.globParseErr (some bad) err) ∧
      globParse bad = some err ∧
      (AssetsError.globParseErr (some bad) err).message =
        "encountered error while parsing the glob \"" ++ bad ++ "\": " ++ err) ∧
    ∀ err, (AssetsError.globParseErr none err).message =
      "encountered error while parsing globs: " ++ err := by
  refine ⟨?_, fun err => rfl⟩
  rcases buildMatchersList_bad (typeGlobs g) h with ⟨bad, err, hb, hp⟩
  exact ⟨bad, err, hb, hp, rfl⟩

/-- C7: the legacy aggregator emits one binding per descriptor in the order
wasm modules, KV namespaces, durable-object classes, text blobs, plain texts;
the modules aggregator emits KV namespaces, durable-object classes, plain
texts, nothing for the owned modules. -/
theorem C7_bindings_order (a : ServiceWorkerAssets) (b : ModulesAssets) :
    a.bindings =
      a.wasm_modules.map WasmModule.binding ++
      a.kv_namespaces.map KvNamespace.binding ++
      a.durable_object_classes.map DurableObjectsClass.binding ++
      a.text_blobs.map TextBlob.binding ++
      a.plain_texts.map PlainText.binding ∧
    b.bindings =
      b.kv_namespaces.map KvNamespace.binding ++
      b.durable_object_classes.map DurableObjectsClass.binding ++
      b.plain_texts.map PlainText.binding := by
  constructor <;>
    simp [ServiceWorkerAssets.bindings, ModulesAssets.bindings, foldl_push,
      List.append_assoc]

/-- C8: the modules-format constructor succeeds on every input; the
service-worker constructor fails exactly when no file stem can be derived
from the script path, with the empty-filename message naming that path. -/
theorem C8_constructor_failure :
    (∀ main mods kv docs mig pts, ModulesAssets.new main mods kv docs mig pts =
      .ok ⟨main, mods, kv, docs, mig, pts⟩) ∧
    ∀ sp wm kv docs tb pts,
      ((∃ e, ServiceWorkerAssets.new sp wm kv docs tb pts = .error e) ↔
        filestem_from_path sp = none) ∧
      (filestem_from_path sp = none →
        ServiceWorkerAssets.new sp wm kv docs tb pts =
          .error (.emptyFilename sp) ∧
        (AssetsError.emptyFilename sp).message =
          "filename should not be empty: " ++ display sp) := by
  refine ⟨fun main mods kv docs mig pts => rfl, fun sp wm kv docs tb pts => ⟨⟨?_, ?_⟩, ?_⟩⟩
  · rintro ⟨e, he⟩
    cases hf : filestem_from_path sp with
    | none => rfl
    | some s =>
      simp only [ServiceWorkerAssets.new, hf] at he
      exact Except.noConfusion he
  · intro hf
    exact ⟨.emptyFilename sp, by simp only [ServiceWorkerAssets.new, hf]⟩
  · intro hf
    exact ⟨by simp only [ServiceWorkerAssets.new, hf], rfl⟩

/-- C9: the content-type lookup maps each of the five module types to its one
fixed content-type string, totally and without a failure path. -/
theorem C9_content_type_map :
    ModuleType.ESModule.content_type = "application/javascript+module" ∧
    ModuleType.CommonJS.content_type = "application/javascript" ∧
    ModuleType.CompiledWasm.content_type = "application/wasm" ∧
    ModuleType.Text.content_type = "text/plain" ∧
    ModuleType.Data.content_type = "application/octet-stream" :=
  ⟨rfl, rfl, rfl, rfl, rfl⟩

/-- C10: a candidate occurring a second time in the input, whitelisted by at
least one matcher, fails the build with the multi-match conflict error on the
later occurrence. -/
theorem C10_duplicate_candidate_conflict (root : FsPath) (ms : List ModuleMatcher)
    (pre l3 : List FsPath) (p rel : FsPath) (st : List (String × Module))
    (hpre : manifestAux root ms pre [] = .ok st) (hmem : p ∈ pre)
    (hstrip : stripRoot root p = some rel)
    (hcount : 1 ≤ countWhitelist ms p) :
    create_module_manifest (pre ++ p :: l3) root ms = .error (.multiMatch p) := by
  have hc : containsName st ("./" ++ toSlash rel) = true :=
    manifestAux_mem root ms pre [] st p rel hpre hmem hstrip hcount
  unfold create_module_manifest
  simp only [manifestAux_append, hpre, manifestAux, hstrip]
  rw [processMatchers_contains_one ("./" ++ toSlash rel) p ms st hc hcount]
  rfl

/-- Matchers compiled from the spec's conflict scenario: an explicit cjs glob
and an explicit text glob both covering shared.js. -/
def conflictMatchers : List ModuleMatcher :=
  [⟨["*.mjs"], .ESModule⟩, ⟨["*.js"], .CommonJS⟩, ⟨[], .CompiledWasm⟩,
   ⟨["shared.*"], .Text⟩, ⟨["*.bin"], .Data⟩]

/-- The doubly matched candidate of the spec's conflict scenario. -/
def sharedPath : FsPath := ["/", "worker", "dist", "shared.js"]

/-- A candidate that does not lie under the scenario upload root. -/
def outsidePath : FsPath := ["/", "elsewhere", "app.js"]

/-- A configuration whose esm list holds an unparsable glob. -/
def badGlobs : ModuleGlobs := ⟨some ["a["], none, none, none, none⟩

/-- The CommonJS candidate of the default scenario, taken alone. -/
def barPath : FsPath := ["/", "worker", "dist", "bar.js"]

/-- A path with no file name, hence no derivable file stem. -/
def emptyScriptPath : FsPath := ["/"]

theorem C2_multi_glob_conflict_witness :
    create_module_manifest [sharedPath] scenarioRoot conflictMatchers =
      .error (.multiMatch sharedPath) ∧
    (AssetsError.multiMatch sharedPath).message =
      "The module at /worker/dist/shared.js matched multiple module type globs." := by
  have h := C2_multi_glob_conflict scenarioRoot conflictMatchers [] []
    sharedPath ["shared.js"] [] rfl rfl (by decide)
  exact ⟨h.1, rfl⟩

theorem C3_manifest_invariant_witness :
    (scenarioManifest.map Module.name).Nodup ∧
    ∀ m ∈ scenarioManifest, ∃ mm,
      defaultMatchers.filter (fun x => matchedWhitelist x.matcher m.path) = [mm] ∧
      m.module_type = mm.module_type :=
  C3_manifest_invariant scenarioPaths scenarioRoot defaultMatchers scenarioManifest rfl

theorem C4_canonical_name_and_root_witness :
    (∀ m ∈ scenarioManifest, ∃ rel, stripRoot scenarioRoot m.path = some rel ∧
      m.name = "./" ++ toSlash rel) ∧
    create_module_manifest [outsidePath] scenarioRoot defaultMatchers =
      .error (.notUnderRoot outsidePath) :=
  ⟨C4_canonical_name_and_root.1 scenarioPaths scenarioRoot defaultMatchers
    scenarioManifest rfl,
   C4_canonical_name_and_root.2 scenarioRoot defaultMatchers [] [] outsidePath [] rfl rfl⟩

theorem C5_zero_match_exclusion_witness :
    ∀ m ∈ scenarioManifest, m.path ≠ wasmPath :=
  C5_zero_match_exclusion.2.2 (scenarioPaths ++ [wasmPath]) scenarioRoot
    defaultMatchers scenarioManifest wasmPath rfl (by decide)

theorem C6_glob_parse_error_witness :
    (∃ bad err, badGlobs.build_type_matchers = .error (.globParseErr (some bad) err) ∧
      globParse bad = some err ∧
      (AssetsError.globParseErr (some bad) err).message =
        "encountered error while parsing the glob \"" ++ bad ++ "\": " ++ err) ∧
    ∀ err, (AssetsError.globParseErr none err).message =
      "encountered error while parsing globs: " ++ err :=
  C6_glob_parse_error badGlobs
    ⟨(["a["], ModuleType.ESModule), by decide, "a[", by decide, by decide⟩

theorem C8_constructor_failure_witness :
    ModulesAssets.new "main" [] [] [] none [] =
      .ok ⟨"main", [], [], [], none, []⟩ ∧
    ((∃ e, ServiceWorkerAssets.new emptyScriptPath [] [] [] [] [] = .error e) ↔
      filestem_from_path emptyScriptPath = none) ∧
    ServiceWorkerAssets.new emptyScriptPath [] [] [] [] [] =
      .error (.emptyFilename emptyScriptPath) ∧
    (AssetsError.emptyFilename emptyScriptPath).message =
      "filename should not be empty: /" := by
  refine ⟨C8_constructor_failure.1 "main" [] [] [] none [],
    (C8_constructor_failure.2 emptyScriptPath [] [] [] [] []).1, ?_, rfl⟩
  exact ((C8_constructor_failure.2 emptyScriptPath [] [] [] [] []).2 rfl).1

theorem C10_duplicate_candidate_conflict_witness :
    create_module_manifest [barPath, barPath] scenarioRoot defaultMatchers =
      .error (.multiMatch barPath) :=
  C10_duplicate_candidate_conflict scenarioRoot defaultMatchers [barPath] []
    barPath ["bar.js"]
    [("./bar.js", ⟨"./bar.js", barPath, ModuleType.CommonJS⟩)]
    rfl (by decide) rfl (by decide)

end Wrangler
